import Mathlib

/-!
Verification of the poly_trader trading system core against its specification.

The definitions below are a shallow embedding of the TypeScript sources:
  - `src/backend/src/services/risk.service.ts`  (risk gate, budget)
  - the database query layer (`queries.*`, SQLite prepared statements)
  - the spread (arbitrage) service: scanners, execution, resolution scheduler
  - the snipe (copy-trading) service: position close logic
  - the advisory response parsers (claude.service.ts / localllm.service.ts)

Machine numbers (JS `number`) are modelled as `ℚ`; databases as in-memory
records/lists; external HTTP results as explicit function parameters.
-/

namespace PolyTrader

/-- JS `Number.prototype.toFixed(d)` for the values arising here
(nonnegative or small rationals): round half-up at `d` decimal digits
and render with exactly `d` fractional digits. -/
def jsToFixed (d : ℕ) (q : ℚ) : String :=
  let n : ℤ := ⌊q * ((10 : ℚ) ^ d) + 1/2⌋
  let sign := if n < 0 then "-" else ""
  let a := n.natAbs
  let ip := a / 10 ^ d
  let fp := a % 10 ^ d
  if d = 0 then
    sign ++ toString ip
  else
    let fs := toString fp
    let pad := String.mk (List.replicate (d - fs.length) '0')
    sign ++ toString ip ++ "." ++ pad ++ fs

/-- JS default number-to-string interpolation (used in template literals).
Rendered exactly for integers; non-integers are approximated with two
decimals — no verified property depends on the non-integer case. -/
def jsNumToString (q : ℚ) : String :=
  if q.den = 1 then
    (if q.num < 0 then "-" else "") ++ toString q.num.natAbs
  else jsToFixed 2 q

/-- `sub` occurs as a contiguous run inside `l`. -/
def charsContain (sub : List Char) : List Char → Bool
  | [] => sub.isEmpty
  | c :: cs => sub.isPrefixOf (c :: cs) || charsContain sub cs

/-- `sub` occurs as a contiguous substring of `s`. -/
def strContains (s sub : String) : Bool :=
  charsContain sub.toList s.toList

/-! ## Risk gate (risk.service.ts) and budget tracking (database.ts) -/

/-- Row of the singleton `risk_config` table. -/
structure RiskConfig where
  max_bet_size : ℚ
  daily_budget : ℚ
  max_open_positions : ℕ
  min_confidence_threshold : ℚ
  max_market_exposure : ℚ
  deriving DecidableEq, Repr

/-- Row of `budget_tracking` for one calendar day. -/
structure BudgetTracking where
  spent : ℚ
  profit_loss : ℚ
  trades_count : ℕ
  deriving DecidableEq, Repr

/-- The columns of a `trades` row that the risk gate reads. -/
structure TradeRow where
  market_id : String
  status : String
  size : ℚ
  deriving DecidableEq, Repr

/-- The slice of the store that `RiskService.validateTrade` reads:
`queries.getRiskConfig`, `queries.getTodayBudget` (both may be absent) and
the `trades` table (`queries.getOpenPositions` selects `status = 'EXECUTED'`,
`queries.getTradesByMarket` filters by market id). -/
structure RiskStore where
  riskConfig : Option RiskConfig
  todayBudget : Option BudgetTracking
  trades : List TradeRow
  deriving DecidableEq, Repr

/-- `TradeProposal` input of `validateTrade`. -/
structure TradeProposal where
  market_id : String
  size : ℚ
  confidence : ℚ
  deriving DecidableEq, Repr

/-- `ValidationResult` output of `validateTrade`. -/
structure ValidationResult where
  approved : Bool
  reason : Option String
  adjustedSize : Option ℚ
  deriving DecidableEq, Repr

/-- `RiskService.calculateMarketExposure`: sum of sizes of EXECUTED trades
for one market (`getTradesByMarket` then filter + reduce). -/
def calculateMarketExposure (trades : List TradeRow) (marketId : String) : ℚ :=
  (((trades.filter (fun t => t.market_id == marketId)).filter
      (fun t => t.status == "EXECUTED")).map (fun t => t.size)).foldl (· + ·) 0

/-- The zero row inserted by `queries.createTodayBudget`. -/
def freshBudget : BudgetTracking := ⟨0, 0, 0⟩

/-- `RiskService.validateTrade`, translated branch by branch from
risk.service.ts lines 20–115. -/
def validateTrade (store : RiskStore) (proposal : TradeProposal) : ValidationResult :=
  match store.riskConfig with
  | none => ⟨false, some "Risk configuration not found", none⟩
  | some riskConfig =>
    -- 1. Check confidence threshold
    if proposal.confidence < riskConfig.min_confidence_threshold then
      ⟨false, some ("Confidence " ++ jsToFixed 1 (proposal.confidence * 100)
        ++ "% below minimum threshold "
        ++ jsToFixed 0 (riskConfig.min_confidence_threshold * 100) ++ "%"), none⟩
    -- 2. Check bet size limit (auto-adjust, returns immediately)
    else if riskConfig.max_bet_size < proposal.size then
      ⟨true, some ("Bet size adjusted from $" ++ jsNumToString proposal.size
        ++ " to maximum $" ++ jsNumToString riskConfig.max_bet_size),
        some riskConfig.max_bet_size⟩
    else if proposal.size ≤ 0 then
      ⟨false, some "Bet size must be greater than 0", none⟩
    else
      -- 3. Check daily budget (row implicitly created when absent)
      let budget := store.todayBudget.getD freshBudget
      let remainingBudget := riskConfig.daily_budget - budget.spent
      if remainingBudget ≤ 0 then
        ⟨false, some ("Daily budget exhausted ($" ++ jsNumToString budget.spent
          ++ "/$" ++ jsNumToString riskConfig.daily_budget ++ ")"), none⟩
      else if remainingBudget < proposal.size then
        ⟨true, some ("Bet size adjusted from $" ++ jsNumToString proposal.size
          ++ " to remaining budget $" ++ jsToFixed 2 remainingBudget),
          some remainingBudget⟩
      else
        -- 4. Check open positions limit
        let openLen := (store.trades.filter (fun t => t.status == "EXECUTED")).length
        if riskConfig.max_open_positions ≤ openLen then
          ⟨false, some ("Maximum open positions reached (" ++ toString openLen
            ++ "/" ++ toString riskConfig.max_open_positions ++ ")"), none⟩
        else
          -- 5. Check per-market exposure
          let marketExposure := calculateMarketExposure store.trades proposal.market_id
          if riskConfig.max_market_exposure < marketExposure + proposal.size then
            let allowedSize := max 0 (riskConfig.max_market_exposure - marketExposure)
            if allowedSize ≤ 0 then
              ⟨false, some ("Market exposure limit reached ($"
                ++ jsToFixed 2 marketExposure ++ "/$"
                ++ jsNumToString riskConfig.max_market_exposure ++ ")"), none⟩
            else
              ⟨true, some ("Bet size adjusted from $" ++ jsNumToString proposal.size
                ++ " to maintain market exposure limit $" ++ jsToFixed 2 allowedSize),
                some allowedSize⟩
          else
            -- All checks passed
            ⟨true, none, some proposal.size⟩

/-- `queries.updateBudget`: `UPDATE budget_tracking SET spent = spent + ?,
profit_loss = profit_loss + ?, trades_count = trades_count + 1`. -/
def queriesUpdateBudget (b : BudgetTracking) (size pnl : ℚ) : BudgetTracking :=
  ⟨b.spent + size, b.profit_loss + pnl, b.trades_count + 1⟩

/-- `RiskService.updateBudget`: creates today's zero row when absent, then
runs `queries.updateBudget`. -/
def riskUpdateBudget (todayBudget : Option BudgetTracking) (size pnl : ℚ) :
    BudgetTracking :=
  queriesUpdateBudget (todayBudget.getD freshBudget) size pnl

/-! ## One trading day: validate, then record the approved size in the budget

`TradingService.executeTrade` calls `riskService.updateBudget(tradeSize)` with
`tradeSize = validation.adjustedSize || analysis.suggested_size`; an approved
result always carries `adjustedSize`. A day step is: run `validateTrade`
against the current budget row (the trades table at that step is an arbitrary
environment), and when approved call `updateBudget` with the approved size. -/

/-- The size recorded for a step, when the proposal is approved. -/
def approvedSizeOf (cfg : RiskConfig) (b : BudgetTracking)
    (step : TradeProposal × List TradeRow) : Option ℚ :=
  let r := validateTrade ⟨some cfg, some b, step.2⟩ step.1
  if r.approved then some (r.adjustedSize.getD step.1.size) else none

/-- One step of the day's sequence. -/
def dayStep (cfg : RiskConfig) (b : BudgetTracking)
    (step : TradeProposal × List TradeRow) : BudgetTracking :=
  match approvedSizeOf cfg b step with
  | some s => queriesUpdateBudget b s 0
  | none => b

/-- Run a whole day's sequence of proposals. -/
def runDay (cfg : RiskConfig) (b : BudgetTracking) :
    List (TradeProposal × List TradeRow) → BudgetTracking
  | [] => b
  | s :: rest => runDay cfg (dayStep cfg b s) rest

/-- The approved (post-clamp) sizes of a day's sequence, in order. -/
def dayApprovedSizes (cfg : RiskConfig) (b : BudgetTracking) :
    List (TradeProposal × List TradeRow) → List ℚ
  | [] => []
  | s :: rest =>
    match approvedSizeOf cfg b s with
    | some sz => sz :: dayApprovedSizes cfg (queriesUpdateBudget b sz 0) rest
    | none => dayApprovedSizes cfg b rest

lemma dayStep_spent (cfg : RiskConfig) (b : BudgetTracking)
    (step : TradeProposal × List TradeRow) :
    (dayStep cfg b step).spent =
      b.spent + ((approvedSizeOf cfg b step).getD 0) := by
  unfold dayStep
  cases h : approvedSizeOf cfg b step <;>
    simp [queriesUpdateBudget]

/-- The numeric outcome of `validateTrade` (the approved post-clamp size, or
`none` for a rejection), stated as a plain conditional chain so that the
string-building in the result record does not get in the way of proofs.
`validateTrade_adjustedSize` and `validateTrade_approved` prove it is a
faithful view of `validateTrade`. -/
def validateTradeAdjusted (cfg : RiskConfig) (tb : Option BudgetTracking)
    (tr : List TradeRow) (p : TradeProposal) : Option ℚ :=
  if p.confidence < cfg.min_confidence_threshold then none
  else if cfg.max_bet_size < p.size then some cfg.max_bet_size
  else if p.size ≤ 0 then none
  else
    let budget := tb.getD freshBudget
    let remainingBudget := cfg.daily_budget - budget.spent
    if remainingBudget ≤ 0 then none
    else if remainingBudget < p.size then some remainingBudget
    else if cfg.max_open_positions ≤
        (tr.filter (fun t => t.status == "EXECUTED")).length then none
    else
      let marketExposure := calculateMarketExposure tr p.market_id
      if cfg.max_market_exposure < marketExposure + p.size then
        let allowedSize := max 0 (cfg.max_market_exposure - marketExposure)
        if allowedSize ≤ 0 then none else some allowedSize
      else some p.size

lemma validateTrade_adjustedSize (cfg : RiskConfig) (tb : Option BudgetTracking)
    (tr : List TradeRow) (p : TradeProposal) :
    (validateTrade ⟨some cfg, tb, tr⟩ p).adjustedSize =
      validateTradeAdjusted cfg tb tr p := by
  unfold validateTrade validateTradeAdjusted
  dsimp only
  split_ifs <;> rfl

lemma validateTrade_approved (cfg : RiskConfig) (tb : Option BudgetTracking)
    (tr : List TradeRow) (p : TradeProposal) :
    (validateTrade ⟨some cfg, tb, tr⟩ p).approved =
      (validateTradeAdjusted cfg tb tr p).isSome := by
  unfold validateTrade validateTradeAdjusted
  dsimp only
  split_ifs <;> rfl

lemma approvedSizeOf_eq (cfg : RiskConfig) (b : BudgetTracking)
    (step : TradeProposal × List TradeRow) :
    approvedSizeOf cfg b step = validateTradeAdjusted cfg (some b) step.2 step.1 := by
  unfold approvedSizeOf
  dsimp only
  rw [validateTrade_approved, validateTrade_adjustedSize]
  cases h : validateTradeAdjusted cfg (some b) step.2 step.1 <;> simp [h]

/-- An approved size, for a proposal within the per-bet cap, never exceeds the
remaining daily budget. -/
lemma approvedSizeOf_le_remaining (cfg : RiskConfig) (b : BudgetTracking)
    (step : TradeProposal × List TradeRow) (s : ℚ)
    (hmax : step.1.size ≤ cfg.max_bet_size)
    (happ : approvedSizeOf cfg b step = some s) :
    s ≤ cfg.daily_budget - b.spent := by
  rw [approvedSizeOf_eq] at happ
  unfold validateTradeAdjusted at happ
  dsimp only [Option.getD_some] at happ
  split_ifs at happ with h1 h2 h3 h4 h5 h6 h7 h8
  · exact absurd h2 (not_lt.2 hmax)
  · cases happ
    linarith [not_le.1 h4]
  · cases happ
    rcases max_choice (0:ℚ) (cfg.max_market_exposure -
        calculateMarketExposure step.2 step.1.market_id) with hm | hm <;>
      rw [hm] <;> linarith [not_le.1 h4, not_le.1 h8]
  · cases happ
    linarith [not_le.1 h4]

lemma runDay_spent (cfg : RiskConfig) (steps : List (TradeProposal × List TradeRow))
    (b : BudgetTracking) :
    (runDay cfg b steps).spent = b.spent + (dayApprovedSizes cfg b steps).sum := by
  induction steps generalizing b with
  | nil => simp [runDay, dayApprovedSizes]
  | cons s rest ih =>
    simp only [runDay, dayApprovedSizes, dayStep]
    cases h : approvedSizeOf cfg b s with
    | none => simp [h, ih]
    | some sz =>
      simp only [h, List.sum_cons, ih, queriesUpdateBudget]
      ring

lemma runDay_le_budget (cfg : RiskConfig) (steps : List (TradeProposal × List TradeRow))
    (hmax : ∀ s ∈ steps, s.1.size ≤ cfg.max_bet_size) (b : BudgetTracking)
    (hb : b.spent ≤ cfg.daily_budget) :
    (runDay cfg b steps).spent ≤ cfg.daily_budget := by
  induction steps generalizing b with
  | nil => exact hb
  | cons s rest ih =>
    refine ih (fun t ht => hmax t (List.mem_cons_of_mem _ ht)) _ ?_
    unfold dayStep
    cases h : approvedSizeOf cfg b s with
    | none => exact hb
    | some sz =>
      have := approvedSizeOf_le_remaining cfg b s sz (hmax s (List.mem_cons_self _ _)) h
      simp only [queriesUpdateBudget]
      linarith

lemma isPrefixOf_self (l : List Char) : l.isPrefixOf l = true := by
  induction l with
  | nil => rfl
  | cons c cs ih => simp [List.isPrefixOf, ih]

lemma charsContain_append_right (pre sub : List Char) :
    charsContain sub (pre ++ sub) = true := by
  induction pre with
  | nil =>
    cases sub with
    | nil => rfl
    | cons c cs => simp [charsContain, isPrefixOf_self]
  | cons p ps ih => simp [charsContain, ih]

/-! ## Claim C1 -/

/-- C1 (counterexample): the claim "the day's spent … never exceeds
`risk_config.daily_budget`" is false. With risk config
`max_bet_size = 10, daily_budget = 20`, three proposals of size 11 at
confidence 0.8 are each approved by the max-bet-size clamp (which returns
before the budget check), and `updateBudget` with the approved sizes drives
`spent` to 30 > 20. -/
theorem overspend_via_maxbet_clamp :
    ((20 : ℚ) <
      (runDay ⟨10, 20, 5, mkRat 6 10, 100⟩ freshBudget
        [(⟨"m", 11, mkRat 8 10⟩, []), (⟨"m", 11, mkRat 8 10⟩, []),
         (⟨"m", 11, mkRat 8 10⟩, [])]).spent) ∧
    (RiskConfig.daily_budget ⟨10, 20, 5, mkRat 6 10, 100⟩ = 20) := by
  decide!

/-- C1 (amended): for every sequence of trade proposals within one day in
which each approved proposal is followed by `updateBudget` with its approved
(post-clamp) size, the day's `spent` equals the sum of the approved sizes;
and provided the daily budget is nonnegative and no proposal exceeds
`max_bet_size` (the max-bet-size clamp returns before the budget check and
can overspend), `spent` never exceeds `daily_budget`. -/
theorem day_spent_eq_sum_and_bounded (cfg : RiskConfig)
    (steps : List (TradeProposal × List TradeRow)) :
    (runDay cfg freshBudget steps).spent =
        (dayApprovedSizes cfg freshBudget steps).sum ∧
    (0 ≤ cfg.daily_budget → (∀ s ∈ steps, s.1.size ≤ cfg.max_bet_size) →
      (runDay cfg freshBudget steps).spent ≤ cfg.daily_budget) := by
  constructor
  · have h := runDay_spent cfg steps freshBudget
    simpa [freshBudget] using h
  · intro hB hmax
    exact runDay_le_budget cfg steps hmax freshBudget (by simpa [freshBudget] using hB)

/-- C1 (witness for `day_spent_eq_sum_and_bounded`). -/
theorem day_spent_eq_sum_and_bounded_witness :
    (runDay ⟨10, 20, 5, mkRat 6 10, 100⟩ freshBudget
        [(⟨"m", 10, mkRat 8 10⟩, [])]).spent =
      (dayApprovedSizes ⟨10, 20, 5, mkRat 6 10, 100⟩ freshBudget
        [(⟨"m", 10, mkRat 8 10⟩, [])]).sum ∧
    (runDay ⟨10, 20, 5, mkRat 6 10, 100⟩ freshBudget
        [(⟨"m", 10, mkRat 8 10⟩, [])]).spent ≤
      RiskConfig.daily_budget ⟨10, 20, 5, mkRat 6 10, 100⟩ :=
  ⟨(day_spent_eq_sum_and_bounded _ _).1,
   (day_spent_eq_sum_and_bounded _ _).2 (by decide!) (by decide!)⟩

/-! ## Claim C2 -/

/-- C2 (counterexample): the claim that an oversized proposal "is still
subject to the open-position-count rejection" and clamped to the remaining
budget is false. With five EXECUTED positions (at the `max_open_positions = 5`
limit) and only $5 of budget headroom, a size-11 proposal is approved at
size 10 — the max-bet-size clamp returns before every later check. -/
theorem oversize_bypasses_later_checks :
    (RiskConfig.max_open_positions ⟨10, 20, 5, mkRat 6 10, 50⟩ ≤
      (List.filter (fun t => t.status == "EXECUTED")
        [(⟨"a", "EXECUTED", 1⟩ : TradeRow), ⟨"b", "EXECUTED", 1⟩,
         ⟨"c", "EXECUTED", 1⟩, ⟨"d", "EXECUTED", 1⟩, ⟨"e", "EXECUTED", 1⟩]).length) ∧
    (validateTrade
        ⟨some ⟨10, 20, 5, mkRat 6 10, 50⟩, some ⟨15, 0, 3⟩,
         [⟨"a", "EXECUTED", 1⟩, ⟨"b", "EXECUTED", 1⟩, ⟨"c", "EXECUTED", 1⟩,
          ⟨"d", "EXECUTED", 1⟩, ⟨"e", "EXECUTED", 1⟩]⟩
        ⟨"m", 11, mkRat 8 10⟩).approved = true ∧
    (validateTrade
        ⟨some ⟨10, 20, 5, mkRat 6 10, 50⟩, some ⟨15, 0, 3⟩,
         [⟨"a", "EXECUTED", 1⟩, ⟨"b", "EXECUTED", 1⟩, ⟨"c", "EXECUTED", 1⟩,
          ⟨"d", "EXECUTED", 1⟩, ⟨"e", "EXECUTED", 1⟩]⟩
        ⟨"m", 11, mkRat 8 10⟩).adjustedSize = some 10 := by
  decide!

/-- C2 (amended): each clamp of `validateTrade` returns immediately,
bypassing all later checks. (1) A proposal with `proposedSize > max_bet_size`
(at sufficient confidence) is approved at exactly `max_bet_size` regardless
of budget, open-position count, or exposure. (2) A within-cap proposal
larger than the remaining budget is approved at exactly the remaining
budget, regardless of open-position count or exposure. (3) A proposal
passing all five checks unmodified is approved at its proposed size. -/
theorem validateTrade_first_clamp_wins :
    (∀ (cfg : RiskConfig) (tb : Option BudgetTracking) (tr : List TradeRow)
        (p : TradeProposal),
      cfg.min_confidence_threshold ≤ p.confidence →
      cfg.max_bet_size < p.size →
      validateTrade ⟨some cfg, tb, tr⟩ p =
        ⟨true, some ("Bet size adjusted from $" ++ jsNumToString p.size
          ++ " to maximum $" ++ jsNumToString cfg.max_bet_size),
         some cfg.max_bet_size⟩) ∧
    (∀ (cfg : RiskConfig) (tb : Option BudgetTracking) (tr : List TradeRow)
        (p : TradeProposal),
      cfg.min_confidence_threshold ≤ p.confidence →
      p.size ≤ cfg.max_bet_size → 0 < p.size →
      0 < cfg.daily_budget - (tb.getD freshBudget).spent →
      cfg.daily_budget - (tb.getD freshBudget).spent < p.size →
      (validateTrade ⟨some cfg, tb, tr⟩ p).approved = true ∧
      (validateTrade ⟨some cfg, tb, tr⟩ p).adjustedSize =
        some (cfg.daily_budget - (tb.getD freshBudget).spent)) ∧
    (∀ (cfg : RiskConfig) (tb : Option BudgetTracking) (tr : List TradeRow)
        (p : TradeProposal),
      cfg.min_confidence_threshold ≤ p.confidence →
      p.size ≤ cfg.max_bet_size → 0 < p.size →
      p.size ≤ cfg.daily_budget - (tb.getD freshBudget).spent →
      (tr.filter (fun t => t.status == "EXECUTED")).length <
        cfg.max_open_positions →
      calculateMarketExposure tr p.market_id + p.size ≤
        cfg.max_market_exposure →
      validateTrade ⟨some cfg, tb, tr⟩ p = ⟨true, none, some p.size⟩) := by
  refine ⟨?_, ?_, ?_⟩
  · intro cfg tb tr p hconf hover
    unfold validateTrade
    dsimp only
    rw [if_neg (not_lt.2 hconf), if_pos hover]
  · intro cfg tb tr p hconf hmax hpos hrem0 hrem
    rw [validateTrade_approved, validateTrade_adjustedSize]
    unfold validateTradeAdjusted
    dsimp only
    rw [if_neg (not_lt.2 hconf), if_neg (not_lt.2 hmax), if_neg (not_le.2 hpos),
      if_neg (not_le.2 hrem0), if_pos hrem]
    exact ⟨rfl, rfl⟩
  · intro cfg tb tr p hconf hmax hpos hrem hopen hexp
    unfold validateTrade
    dsimp only
    rw [if_neg (not_lt.2 hconf), if_neg (not_lt.2 hmax), if_neg (not_le.2 hpos),
      if_neg (not_le.2 (by linarith)), if_neg (not_lt.2 hrem),
      if_neg (not_le.2 hopen), if_neg (not_lt.2 hexp)]

/-- C2 (witness for `validateTrade_first_clamp_wins`): the oversize clamp at
a concrete store. -/
theorem validateTrade_first_clamp_wins_witness :
    validateTrade ⟨some ⟨10, 20, 5, mkRat 6 10, 50⟩, some ⟨15, 0, 3⟩, []⟩
        ⟨"m", 11, mkRat 8 10⟩ =
      ⟨true, some ("Bet size adjusted from $" ++ jsNumToString 11
        ++ " to maximum $" ++ jsNumToString 10), some 10⟩ :=
  validateTrade_first_clamp_wins.1 ⟨10, 20, 5, mkRat 6 10, 50⟩
    (some ⟨15, 0, 3⟩) [] ⟨"m", 11, mkRat 8 10⟩ (by decide!) (by decide!)

/-! ## Claim C8 -/

/-- C8: whenever `0 < proposedSize ≤ max_bet_size`, confidence is at least
the threshold, and `0 < remaining = daily_budget − spent < proposedSize`,
`validateTrade` approves with `adjustedSize = remaining` and a reason string
mentioning the remaining budget (formatted to two decimals). -/
theorem validateTrade_clamps_to_remaining (cfg : RiskConfig)
    (tb : Option BudgetTracking) (tr : List TradeRow) (p : TradeProposal)
    (hconf : cfg.min_confidence_threshold ≤ p.confidence)
    (hmax : p.size ≤ cfg.max_bet_size) (hpos : 0 < p.size)
    (hrem0 : 0 < cfg.daily_budget - (tb.getD freshBudget).spent)
    (hrem : cfg.daily_budget - (tb.getD freshBudget).spent < p.size) :
    validateTrade ⟨some cfg, tb, tr⟩ p =
      ⟨true, some ("Bet size adjusted from $" ++ jsNumToString p.size
        ++ " to remaining budget $"
        ++ jsToFixed 2 (cfg.daily_budget - (tb.getD freshBudget).spent)),
       some (cfg.daily_budget - (tb.getD freshBudget).spent)⟩ ∧
    strContains ("Bet size adjusted from $" ++ jsNumToString p.size
        ++ " to remaining budget $"
        ++ jsToFixed 2 (cfg.daily_budget - (tb.getD freshBudget).spent))
      ("remaining budget $"
        ++ jsToFixed 2 (cfg.daily_budget - (tb.getD freshBudget).spent)) = true := by
  constructor
  · unfold validateTrade
    dsimp only
    rw [if_neg (not_lt.2 hconf), if_neg (not_lt.2 hmax), if_neg (not_le.2 hpos),
      if_neg (not_le.2 hrem0), if_pos hrem]
  · unfold strContains
    have h1 : ("Bet size adjusted from $" ++ jsNumToString p.size
          ++ " to remaining budget $"
          ++ jsToFixed 2 (cfg.daily_budget - (tb.getD freshBudget).spent)).toList
        = ("Bet size adjusted from $" ++ jsNumToString p.size ++ " to ").toList
          ++ ("remaining budget $"
            ++ jsToFixed 2 (cfg.daily_budget - (tb.getD freshBudget).spent)).toList := by
      simp only [String.toList, String.data_append, List.append_assoc,
        List.cons_append, List.nil_append]
    rw [h1]
    exact charsContain_append_right _ _

/-- C8 (witness for `validateTrade_clamps_to_remaining`): the spec's
scenario — config `max_bet_size 10, daily_budget 20, min_confidence 0.6`,
spent 15, proposal of size 10 at confidence 0.8 is approved with
`adjustedSize = 5` and a reason mentioning "remaining budget $5.00". -/
theorem validateTrade_clamps_to_remaining_witness :
    (validateTrade ⟨some ⟨10, 20, 5, mkRat 6 10, 100⟩, some ⟨15, 0, 3⟩, []⟩
        ⟨"m", 10, mkRat 8 10⟩).approved = true ∧
    (validateTrade ⟨some ⟨10, 20, 5, mkRat 6 10, 100⟩, some ⟨15, 0, 3⟩, []⟩
        ⟨"m", 10, mkRat 8 10⟩).adjustedSize = some 5 ∧
    strContains ((validateTrade
        ⟨some ⟨10, 20, 5, mkRat 6 10, 100⟩, some ⟨15, 0, 3⟩, []⟩
        ⟨"m", 10, mkRat 8 10⟩).reason.getD "") "remaining budget $5.00" = true := by
  have h := validateTrade_clamps_to_remaining ⟨10, 20, 5, mkRat 6 10, 100⟩
    (some ⟨15, 0, 3⟩) [] ⟨"m", 10, mkRat 8 10⟩
    (by decide!) (by decide!) (by decide!) (by decide!) (by decide!)
  refine ⟨by rw [h.1], by rw [h.1]; decide!, ?_⟩
  rw [h.1]
  decide!

/-! ## Claim C10 -/

/-- C10: every call to `updateBudget` — execution (`size > 0, pnl = 0`) or
resolution/close credit (`size = 0, pnl ≠ 0`) alike — increments today's
`trades_count` by exactly 1, in addition to adding `size` to `spent` and
`pnl` to `profit_loss`. -/
theorem updateBudget_increments_trades_count (tb : Option BudgetTracking)
    (size pnl : ℚ) :
    (riskUpdateBudget tb size pnl).trades_count =
        (tb.getD freshBudget).trades_count + 1 ∧
    (riskUpdateBudget tb size pnl).spent = (tb.getD freshBudget).spent + size ∧
    (riskUpdateBudget tb size pnl).profit_loss =
        (tb.getD freshBudget).profit_loss + pnl := by
  cases tb <;> simp [riskUpdateBudget, queriesUpdateBudget, freshBudget]

/-! ## Spread scanner (SpreadService.scanSingleMarkets / scanMultiOutcomeEvents
/ scanAll) -/

/-- JS `a || d` for an optional string (`none` = missing, `""` is falsy). -/
def jsOrStr (o : Option String) (d : String) : String :=
  match o with
  | some s => if s = "" then d else s
  | none => d

/-- JS `a || d` for an optional number (`none` = missing/NaN, `0` is falsy). -/
def jsOrRat (o : Option ℚ) (d : ℚ) : ℚ :=
  match o with
  | some x => if x = 0 then d else x
  | none => d

/-- JS `parseFloat(x) || null` (`none` = NaN, and `0` is falsy → `null`). -/
def jsOrNullRat (o : Option ℚ) : Option ℚ :=
  match o with
  | some x => if x = 0 then none else some x
  | none => none

/-- A market row from the market-data provider as read by the scanners:
`outcomePrices` entries are `none` when `parseFloat` yields NaN; `endDate`
(the first non-null of `endDate`/`end_date_iso`) is an epoch timestamp. -/
structure GammaMarket where
  id : Option String
  eventId : Option String
  conditionId : Option String
  question : Option String
  groupItemTitle : Option String
  slug : Option String
  outcomePrices : List (Option ℚ)
  liquidity : Option ℚ
  volume24hr : Option ℚ
  endDate : Option ℤ
  deriving DecidableEq, Repr

/-- An event row from the market-data provider (multi-outcome scanner). -/
structure GammaEvent where
  id : Option String
  title : Option String
  slug : Option String
  markets : List GammaMarket
  deriving DecidableEq, Repr

/-- `SpreadOpportunity` as built by the scanners and persisted via
`queries.addSpreadOpportunity` / `queries.updateOpportunityLastSeen`. -/
structure SpreadOpportunity where
  opportunity_type : String
  market_id : Option String
  event_id : Option String
  condition_id : Option String
  question : String
  slug : Option String
  outcomes : List String
  prices : List ℚ
  total_cost : ℚ
  guaranteed_payout : ℚ
  spread_profit : ℚ
  spread_pct : ℚ
  liquidity : Option ℚ
  volume_24h : Option ℚ
  end_date : Option ℤ
  deriving DecidableEq, Repr

/-- The `spread_config` columns the scanners read. -/
structure SpreadConfig where
  min_spread_threshold : Option ℚ
  scan_multi_outcome : Bool
  deriving DecidableEq, Repr

/-- One iteration of the `scanSingleMarkets` loop (part_006 lines 46–88):
skip when fewer than two prices, a price is NaN, a price is ≤ 0, or the
spread profit is ≤ 0; otherwise build a SINGLE opportunity. -/
def scanSingleMarket (m : GammaMarket) : Option SpreadOpportunity :=
  match m.outcomePrices with
  | some yesPrice :: some noPrice :: _ =>
    if yesPrice ≤ 0 ∨ noPrice ≤ 0 then none
    else
      let totalCost := yesPrice + noPrice
      let guaranteedPayout : ℚ := 1
      let spreadProfit := guaranteedPayout - totalCost
      if spreadProfit ≤ 0 then none
      else
        some
          { opportunity_type := "SINGLE"
            market_id := m.id
            event_id := m.eventId
            condition_id := m.conditionId
            question := jsOrStr m.question "Unknown"
            slug := m.slug
            outcomes := ["Yes", "No"]
            prices := [yesPrice, noPrice]
            total_cost := totalCost
            guaranteed_payout := guaranteedPayout
            spread_profit := spreadProfit
            spread_pct := spreadProfit / totalCost
            liquidity := jsOrNullRat m.liquidity
            volume_24h := jsOrNullRat m.volume24hr
            end_date := m.endDate }
  | _ => none

/-- `SpreadService.scanSingleMarkets` over a fetched market list. -/
def scanSingleMarkets (markets : List GammaMarket) : List SpreadOpportunity :=
  markets.filterMap scanSingleMarket

/-- Accumulator of the inner loop of `scanMultiOutcomeEvents`. -/
structure MultiAcc where
  outcomes : List String
  prices : List ℚ
  totalCost : ℚ
  minLiquidity : Option ℚ
  earliestEndDate : Option ℤ
  deriving DecidableEq, Repr

/-- One constituent market of an event (part_006 lines 123–148): skip when
no first price, NaN, or ≤ 0; otherwise push the outcome, accumulate cost,
track minimum liquidity and earliest end date. -/
def multiAccStep (acc : MultiAcc) (m : GammaMarket) : MultiAcc :=
  match m.outcomePrices with
  | some yesPrice :: _ =>
    if yesPrice ≤ 0 then acc
    else
      { outcomes := acc.outcomes ++ [jsOrStr m.groupItemTitle
          (jsOrStr m.question "Unknown")]
        prices := acc.prices ++ [yesPrice]
        totalCost := acc.totalCost + yesPrice
        minLiquidity :=
          match m.liquidity, acc.minLiquidity with
          | none, ml => ml
          | some l, none => some l
          | some l, some ml => some (min ml l)
        earliestEndDate :=
          match m.endDate, acc.earliestEndDate with
          | none, e => e
          | some d, none => some d
          | some d, some e => if d < e then some d else some e }
  | _ => acc

/-- One iteration of the `scanMultiOutcomeEvents` outer loop
(part_006 lines 112–179). -/
def scanMultiEvent (ev : GammaEvent) : Option SpreadOpportunity :=
  if ev.markets.length < 2 then none
  else
    let acc := ev.markets.foldl multiAccStep ⟨[], [], 0, none, none⟩
    if acc.outcomes.length < 2 then none
    else
      let guaranteedPayout : ℚ := 1
      let spreadProfit := guaranteedPayout - acc.totalCost
      if spreadProfit ≤ 0 then none
      else
        some
          { opportunity_type := "MULTI"
            market_id := none
            event_id := ev.id
            condition_id := none
            question := jsOrStr ev.title "Unknown Event"
            slug := ev.slug
            outcomes := acc.outcomes
            prices := acc.prices
            total_cost := acc.totalCost
            guaranteed_payout := guaranteedPayout
            spread_profit := spreadProfit
            spread_pct := spreadProfit / acc.totalCost
            liquidity := acc.minLiquidity
            volume_24h := none
            end_date := acc.earliestEndDate }

/-- `SpreadService.scanMultiOutcomeEvents`: empty unless the
`scan_multi_outcome` toggle is set. -/
def scanMultiOutcomeEvents (config : Option SpreadConfig)
    (events : List GammaEvent) : List SpreadOpportunity :=
  match config with
  | none => []
  | some c => if c.scan_multi_outcome then events.filterMap scanMultiEvent else []

/-- The effective minimum spread threshold of `scanAll`:
`config?.min_spread_threshold || 0.01`. -/
def minSpreadThresholdOf (config : Option SpreadConfig) : ℚ :=
  jsOrRat (config.bind (·.min_spread_threshold)) (mkRat 1 100)

/-- The opportunities `scanAll` persists in one scan (part_006 lines
190–241): both scanners' results filtered by
`spread_pct >= minThreshold`. Every member is written to the store — new
identifiers via `addSpreadOpportunity`, re-observed ones via
`updateOpportunityLastSeen` (which refreshes prices, cost, profit and pct
with exactly these values). -/
def scanAllPersisted (config : Option SpreadConfig)
    (markets : List GammaMarket) (events : List GammaEvent) :
    List SpreadOpportunity :=
  (scanSingleMarkets markets ++ scanMultiOutcomeEvents config events).filter
    (fun o => minSpreadThresholdOf config ≤ o.spread_pct)

lemma scanSingleMarket_inv (m : GammaMarket) (o : SpreadOpportunity)
    (h : scanSingleMarket m = some o) :
    0 < o.guaranteed_payout - o.total_cost ∧
    o.spread_profit = o.guaranteed_payout - o.total_cost ∧
    o.spread_pct = (o.guaranteed_payout - o.total_cost) / o.total_cost := by
  unfold scanSingleMarket at h
  split at h
  · dsimp only at h
    split_ifs at h with h1 h2
    injection h with h
    subst h
    dsimp only
    refine ⟨by linarith [not_le.1 h2], rfl, rfl⟩
  · exact Option.noConfusion h

lemma scanMultiEvent_inv (ev : GammaEvent) (o : SpreadOpportunity)
    (h : scanMultiEvent ev = some o) :
    0 < o.guaranteed_payout - o.total_cost ∧
    o.spread_profit = o.guaranteed_payout - o.total_cost ∧
    o.spread_pct = (o.guaranteed_payout - o.total_cost) / o.total_cost := by
  unfold scanMultiEvent at h
  dsimp only at h
  split_ifs at h with h1 h2 h3
  injection h with h
  subst h
  dsimp only
  refine ⟨by linarith [not_le.1 h3], rfl, rfl⟩

/-! ## Claim C3 -/

/-- C3 (counterexample): the claim that every persisted opportunity has
`spread_pct` strictly greater than the configured minimum threshold is
false: `scanAll` filters with `spread_pct >= minThreshold`. A market priced
`[50/101, 50/101]` yields `spread_pct = 1/100`, exactly the configured
threshold `0.01`, and is persisted. -/
theorem persisted_at_exact_threshold :
    ((scanAllPersisted (some ⟨some (mkRat 1 100), false⟩)
        [⟨some "mkt1", none, none, some "q", none, none,
          [some (mkRat 50 101), some (mkRat 50 101)], none, none, none⟩] []).map
      SpreadOpportunity.spread_pct = [mkRat 1 100]) ∧
    ¬ ((mkRat 1 100 : ℚ) > mkRat 1 100) := by
  decide!

/-- C3 (amended): every spread opportunity persisted by a scan (newly
inserted rows and rows refreshed on re-observation alike) satisfies
`guaranteed_payout − total_cost > 0`,
`spread_pct = (guaranteed_payout − total_cost)/total_cost`, and
`spread_pct ≥` the configured minimum spread threshold (greater-or-equal,
not strictly greater); an opportunity with nonpositive profit or with
`spread_pct` below the threshold is never persisted. -/
theorem persisted_opportunity_invariant (config : Option SpreadConfig)
    (markets : List GammaMarket) (events : List GammaEvent)
    (o : SpreadOpportunity) (ho : o ∈ scanAllPersisted config markets events) :
    0 < o.guaranteed_payout - o.total_cost ∧
    o.spread_profit = o.guaranteed_payout - o.total_cost ∧
    o.spread_pct = (o.guaranteed_payout - o.total_cost) / o.total_cost ∧
    minSpreadThresholdOf config ≤ o.spread_pct := by
  rw [scanAllPersisted, List.mem_filter] at ho
  obtain ⟨hmem, hth⟩ := ho
  rw [List.mem_append] at hmem
  have hinv : 0 < o.guaranteed_payout - o.total_cost ∧
      o.spread_profit = o.guaranteed_payout - o.total_cost ∧
      o.spread_pct = (o.guaranteed_payout - o.total_cost) / o.total_cost := by
    rcases hmem with hs | hm
    · rw [scanSingleMarkets, List.mem_filterMap] at hs
      obtain ⟨m, _, hf⟩ := hs
      exact scanSingleMarket_inv m o hf
    · unfold scanMultiOutcomeEvents at hm
      rcases config with _ | c
      · dsimp only at hm
        exact absurd hm (List.not_mem_nil o)
      · dsimp only at hm
        by_cases ht : c.scan_multi_outcome
        · rw [if_pos ht, List.mem_filterMap] at hm
          obtain ⟨ev, _, hf⟩ := hm
          exact scanMultiEvent_inv ev o hf
        · rw [if_neg ht] at hm
          exact absurd hm (List.not_mem_nil o)
  exact ⟨hinv.1, hinv.2.1, hinv.2.2, by simpa using hth⟩

/-- C3 (witness for `persisted_opportunity_invariant`). -/
theorem persisted_opportunity_invariant_witness :
    0 < SpreadOpportunity.guaranteed_payout
        ⟨"SINGLE", some "mkt1", none, none, "q", none, ["Yes", "No"],
          [mkRat 47 100, mkRat 50 100], mkRat 97 100, 1, mkRat 3 100,
          mkRat 3 97, none, none, none⟩ -
      SpreadOpportunity.total_cost
        ⟨"SINGLE", some "mkt1", none, none, "q", none, ["Yes", "No"],
          [mkRat 47 100, mkRat 50 100], mkRat 97 100, 1, mkRat 3 100,
          mkRat 3 97, none, none, none⟩ ∧
    SpreadOpportunity.spread_profit
        ⟨"SINGLE", some "mkt1", none, none, "q", none, ["Yes", "No"],
          [mkRat 47 100, mkRat 50 100], mkRat 97 100, 1, mkRat 3 100,
          mkRat 3 97, none, none, none⟩ =
      SpreadOpportunity.guaranteed_payout
        ⟨"SINGLE", some "mkt1", none, none, "q", none, ["Yes", "No"],
          [mkRat 47 100, mkRat 50 100], mkRat 97 100, 1, mkRat 3 100,
          mkRat 3 97, none, none, none⟩ -
      SpreadOpportunity.total_cost
        ⟨"SINGLE", some "mkt1", none, none, "q", none, ["Yes", "No"],
          [mkRat 47 100, mkRat 50 100], mkRat 97 100, 1, mkRat 3 100,
          mkRat 3 97, none, none, none⟩ ∧
    SpreadOpportunity.spread_pct
        ⟨"SINGLE", some "mkt1", none, none, "q", none, ["Yes", "No"],
          [mkRat 47 100, mkRat 50 100], mkRat 97 100, 1, mkRat 3 100,
          mkRat 3 97, none, none, none⟩ =
      (SpreadOpportunity.guaranteed_payout
          ⟨"SINGLE", some "mkt1", none, none, "q", none, ["Yes", "No"],
            [mkRat 47 100, mkRat 50 100], mkRat 97 100, 1, mkRat 3 100,
            mkRat 3 97, none, none, none⟩ -
        SpreadOpportunity.total_cost
          ⟨"SINGLE", some "mkt1", none, none, "q", none, ["Yes", "No"],
            [mkRat 47 100, mkRat 50 100], mkRat 97 100, 1, mkRat 3 100,
            mkRat 3 97, none, none, none⟩) /
      SpreadOpportunity.total_cost
        ⟨"SINGLE", some "mkt1", none, none, "q", none, ["Yes", "No"],
          [mkRat 47 100, mkRat 50 100], mkRat 97 100, 1, mkRat 3 100,
          mkRat 3 97, none, none, none⟩ ∧
    minSpreadThresholdOf (some ⟨some (mkRat 1 100), false⟩) ≤
      SpreadOpportunity.spread_pct
        ⟨"SINGLE", some "mkt1", none, none, "q", none, ["Yes", "No"],
          [mkRat 47 100, mkRat 50 100], mkRat 97 100, 1, mkRat 3 100,
          mkRat 3 97, none, none, none⟩ :=
  persisted_opportunity_invariant (some ⟨some (mkRat 1 100), false⟩)
    [⟨some "mkt1", none, none, some "q", none, none,
      [some (mkRat 47 100), some (mkRat 50 100)], none, none, none⟩] []
    ⟨"SINGLE", some "mkt1", none, none, "q", none, ["Yes", "No"],
      [mkRat 47 100, mkRat 50 100], mkRat 97 100, 1, mkRat 3 100,
      mkRat 3 97, none, none, none⟩ (by decide!)

/-! ## Claim C7 -/

/-- C7: for every active binary market whose first two outcome prices `y`
and `n` are both positive, the single-market scanner emits an opportunity
exactly when `y + n < 1`, with `total_cost = y + n`,
`spread_profit = 1 − (y + n)` and
`spread_pct = spread_profit / total_cost`. -/
theorem scanSingle_detects_exactly (m : GammaMarket) (y n : ℚ)
    (rest : List (Option ℚ))
    (hp : m.outcomePrices = some y :: some n :: rest) (hy : 0 < y) (hn : 0 < n) :
    (y + n < 1 →
      scanSingleMarket m = some
        ⟨"SINGLE", m.id, m.eventId, m.conditionId, jsOrStr m.question "Unknown",
         m.slug, ["Yes", "No"], [y, n], y + n, 1, 1 - (y + n),
         (1 - (y + n)) / (y + n), jsOrNullRat m.liquidity,
         jsOrNullRat m.volume24hr, m.endDate⟩) ∧
    (1 ≤ y + n → scanSingleMarket m = none) := by
  have hno : ¬(y ≤ 0 ∨ n ≤ 0) := by
    simp only [not_or, not_le]
    exact ⟨hy, hn⟩
  constructor
  · intro hlt
    unfold scanSingleMarket
    rw [hp]
    dsimp only
    rw [if_neg hno, if_neg (by simp only [not_le]; linarith : ¬((1:ℚ) - (y + n) ≤ 0))]
  · intro hge
    unfold scanSingleMarket
    rw [hp]
    dsimp only
    rw [if_neg hno, if_pos (by linarith : (1:ℚ) - (y + n) ≤ 0)]

/-- C7 (witness for `scanSingle_detects_exactly`): prices `[0.47, 0.50]`
yield `total_cost = 0.97`, `spread_profit = 0.03`,
`spread_pct = 3/97 ≈ 0.0309`. -/
theorem scanSingle_detects_exactly_witness :
    (scanSingleMarket ⟨none, none, none, none, none, none,
        [some (mkRat 47 100), some (mkRat 50 100)], none, none, none⟩).map
      (fun o => (o.total_cost, o.spread_profit, o.spread_pct)) =
      some (mkRat 97 100, mkRat 3 100, mkRat 3 97) := by
  have h := (scanSingle_detects_exactly
    ⟨none, none, none, none, none, none,
      [some (mkRat 47 100), some (mkRat 50 100)], none, none, none⟩
    (mkRat 47 100) (mkRat 50 100) [] rfl (by decide!) (by decide!)).1 (by decide!)
  rw [h]
  decide!

/-! ## Spread execution and resolution close
(SpreadService.executeSpread / checkOpenTrades) -/

/-- An active `spread_opportunities` row as read back by `executeSpread`
(`outcomes_json` already parsed into the outcome list). -/
structure SpreadOppRow where
  id : ℕ
  opportunity_type : String
  market_id : Option String
  event_id : Option String
  condition_id : Option String
  question : String
  slug : Option String
  outcomes_json : List String
  end_date : Option ℤ
  total_cost : ℚ
  guaranteed_payout : ℚ
  spread_pct : ℚ
  deriving DecidableEq, Repr

/-- A `spread_trades` row: the columns of `queries.addSpreadTrade` (which
inserts with `status = 'OPEN'`), plus `realized_pnl`, set on close. -/
structure SpreadTrade where
  opportunity_id : ℕ
  opportunity_type : String
  market_id : Option String
  event_id : Option String
  condition_id : Option String
  question : String
  slug : Option String
  outcomes_json : List String
  end_date : Option ℤ
  total_cost : ℚ
  guaranteed_payout : ℚ
  expected_profit : ℚ
  size_per_outcome : ℚ
  num_outcomes : ℕ
  total_invested : ℚ
  status : String
  is_paper_trade : Bool
  realized_pnl : Option ℚ
  deriving DecidableEq, Repr

/-- The trade record built by `SpreadService.executeSpread` (part_006 lines
274–276 and 375–395). Order placement is external I/O and only determines
`isRealTrade` (hence the paper flag); every recorded number is computed
from the opportunity row and the investment. -/
def executeSpreadTrade (opp : SpreadOppRow) (totalInvestment : ℚ)
    (isRealTrade : Bool) : SpreadTrade :=
  let numOutcomes := opp.outcomes_json.length
  let sizePerOutcome := totalInvestment / (numOutcomes : ℚ)
  let expectedProfit := opp.spread_pct * totalInvestment / (1 + opp.spread_pct)
  { opportunity_id := opp.id
    opportunity_type := opp.opportunity_type
    market_id := opp.market_id
    event_id := opp.event_id
    condition_id := opp.condition_id
    question := opp.question
    slug := opp.slug
    outcomes_json := opp.outcomes_json
    end_date := opp.end_date
    total_cost := opp.total_cost
    guaranteed_payout := opp.guaranteed_payout
    expected_profit := expectedProfit
    size_per_outcome := sizePerOutcome
    num_outcomes := numOutcomes
    total_invested := totalInvestment
    status := "OPEN"
    is_paper_trade := !isRealTrade
    realized_pnl := none }

/-- `executeSpread`: record the trade and debit the investment from the
daily budget (`riskService.updateBudget(totalInvestment, 0)`). -/
def executeSpread (opp : SpreadOppRow) (totalInvestment : ℚ)
    (isRealTrade : Bool) (tb : Option BudgetTracking) :
    SpreadTrade × BudgetTracking :=
  (executeSpreadTrade opp totalInvestment isRealTrade,
   riskUpdateBudget tb totalInvestment 0)

/-- The skip test `trade.end_date && new Date(trade.end_date).getTime() > now`. -/
def endDateFuture (now : ℤ) : Option ℤ → Bool
  | some e => now < e
  | none => false

/-- One iteration of `SpreadService.checkOpenTrades` for one open trade
(part_006 lines 435–492). `isResolved` is the external market-data answer
(`closed` flag); a trade whose `end_date` is still in the future is skipped
unless `forceAll`; a resolved trade is closed with
`realized_pnl = expected_profit` and the P&L credited to the ledger. -/
def checkTradeStep (now : ℤ) (forceAll : Bool) (t : SpreadTrade)
    (isResolved : Bool) (b : BudgetTracking) : SpreadTrade × BudgetTracking :=
  if !forceAll && endDateFuture now t.end_date then
    (t, b)
  else if isResolved then
    ({ t with status := "CLOSED", realized_pnl := some t.expected_profit },
     queriesUpdateBudget b 0 t.expected_profit)
  else (t, b)

/-! ## Claim C6 -/

/-- C6: `executeSpread` records
`size_per_outcome = totalInvestment / number-of-outcomes` and
`expected_profit = spread_pct × totalInvestment / (1 + spread_pct)`, both
from the opportunity's spread percentage at execution time, debiting the
investment from the daily ledger; and when the trade is later closed by the
resolution check its realized P&L is exactly the recorded
`expected_profit` (never re-priced), credited to the ledger. -/
theorem spread_profit_locked_at_execution (opp : SpreadOppRow)
    (totalInvestment : ℚ) (isRealTrade : Bool) (tb : Option BudgetTracking)
    (now : ℤ) (b2 : BudgetTracking) (isResolved : Bool)
    (hn : 0 < opp.outcomes_json.length)
    (hdue : ∀ e, opp.end_date = some e → e ≤ now) :
    (executeSpread opp totalInvestment isRealTrade tb).1.size_per_outcome =
        totalInvestment / (opp.outcomes_json.length : ℚ) ∧
    (executeSpread opp totalInvestment isRealTrade tb).1.expected_profit =
        opp.spread_pct * totalInvestment / (1 + opp.spread_pct) ∧
    (executeSpread opp totalInvestment isRealTrade tb).1.status = "OPEN" ∧
    (executeSpread opp totalInvestment isRealTrade tb).2.spent =
        (tb.getD freshBudget).spent + totalInvestment ∧
    (isResolved = true →
      (checkTradeStep now false
          (executeSpread opp totalInvestment isRealTrade tb).1 isResolved b2).1.realized_pnl
        = some ((executeSpread opp totalInvestment isRealTrade tb).1.expected_profit) ∧
      (checkTradeStep now false
          (executeSpread opp totalInvestment isRealTrade tb).1 isResolved b2).1.status
        = "CLOSED" ∧
      (checkTradeStep now false
          (executeSpread opp totalInvestment isRealTrade tb).1 isResolved b2).2.profit_loss
        = b2.profit_loss +
          (executeSpread opp totalInvestment isRealTrade tb).1.expected_profit) := by
  refine ⟨rfl, rfl, rfl, by simp [executeSpread, riskUpdateBudget, queriesUpdateBudget], ?_⟩
  intro hres
  subst hres
  have hfut : endDateFuture now opp.end_date = false := by
    rcases he : opp.end_date with _ | e
    · rfl
    · exact decide_eq_false (not_lt.2 (hdue e he))
  have h1 : (executeSpread opp totalInvestment isRealTrade tb).1.end_date =
      opp.end_date := rfl
  unfold checkTradeStep
  rw [h1, hfut, if_neg (by simp), if_pos rfl]
  exact ⟨rfl, rfl, by simp [queriesUpdateBudget]⟩

/-- C6 (witness for `spread_profit_locked_at_execution`): the spec's
scenario — executing the `[0.47, 0.50]` opportunity (spread_pct = 3/97)
with totalInvestment 10 gives size_per_outcome 5 and
expected_profit = 10 × (3/97)/(1 + 3/97) = 3/10. -/
theorem spread_profit_locked_at_execution_witness :
    (executeSpread ⟨1, "SINGLE", some "mkt1", none, none, "q", none,
        ["Yes", "No"], some 1000, mkRat 97 100, 1, mkRat 3 97⟩
        10 false (some ⟨0, 0, 0⟩)).1.size_per_outcome = 10 / ((2 : ℕ) : ℚ) ∧
    (executeSpread ⟨1, "SINGLE", some "mkt1", none, none, "q", none,
        ["Yes", "No"], some 1000, mkRat 97 100, 1, mkRat 3 97⟩
        10 false (some ⟨0, 0, 0⟩)).1.expected_profit =
      mkRat 3 97 * 10 / (1 + mkRat 3 97) ∧
    (executeSpread ⟨1, "SINGLE", some "mkt1", none, none, "q", none,
        ["Yes", "No"], some 1000, mkRat 97 100, 1, mkRat 3 97⟩
        10 false (some ⟨0, 0, 0⟩)).1.status = "OPEN" ∧
    (executeSpread ⟨1, "SINGLE", some "mkt1", none, none, "q", none,
        ["Yes", "No"], some 1000, mkRat 97 100, 1, mkRat 3 97⟩
        10 false (some ⟨0, 0, 0⟩)).2.spent =
      (BudgetTracking.spent ⟨0, 0, 0⟩) + 10 ∧
    (checkTradeStep 2000 false
        (executeSpread ⟨1, "SINGLE", some "mkt1", none, none, "q", none,
          ["Yes", "No"], some 1000, mkRat 97 100, 1, mkRat 3 97⟩
          10 false (some ⟨0, 0, 0⟩)).1 true ⟨0, 0, 0⟩).1.realized_pnl =
      some ((executeSpread ⟨1, "SINGLE", some "mkt1", none, none, "q", none,
          ["Yes", "No"], some 1000, mkRat 97 100, 1, mkRat 3 97⟩
          10 false (some ⟨0, 0, 0⟩)).1.expected_profit) := by
  have h := spread_profit_locked_at_execution
    ⟨1, "SINGLE", some "mkt1", none, none, "q", none,
      ["Yes", "No"], some 1000, mkRat 97 100, 1, mkRat 3 97⟩
    10 false (some ⟨0, 0, 0⟩) 2000 ⟨0, 0, 0⟩ true
    (by decide) (by intro e he; injection he with he; subst he; decide)
  exact ⟨h.1, h.2.1, h.2.2.1, h.2.2.2.1, (h.2.2.2.2 rfl).1⟩

/-! ## Snipe position close (SnipeService.checkAndClosePositions) -/

/-- A `sniped_positions` row as read by `getOpenSnipedPositions`. -/
structure SnipedPosition where
  id : ℕ
  condition_id : String
  title : String
  outcome : String
  entry_price : ℚ
  current_price : ℚ
  size : ℚ
  profit_target : ℚ
  status : String
  is_paper_trade : Bool
  realized_pnl : Option ℚ
  deriving DecidableEq, Repr

/-- One iteration of `SnipeService.checkAndClosePositions` for one open
position (part_007 lines 248–341), given the freshly fetched
`currentPrice` (external input): always refresh `current_price`
(`updateSnipedPositionPrice`); when
`(current − entry)/entry ≥ profit_target`, close the position
(`closeSnipedPosition` with `realized_pnl = shares × current − size`,
`shares = size/entry`) and credit the P&L to the daily ledger. -/
def checkPositionStep (pos : SnipedPosition) (currentPrice : ℚ)
    (b : BudgetTracking) : SnipedPosition × BudgetTracking :=
  let pos1 := { pos with current_price := currentPrice }
  let pnlPct := (currentPrice - pos.entry_price) / pos.entry_price
  if pos.profit_target ≤ pnlPct then
    let shares := pos.size / pos.entry_price
    let realizedPnl := shares * currentPrice - pos.size
    ({ pos1 with status := "CLOSED", realized_pnl := some realizedPnl },
     queriesUpdateBudget b 0 realizedPnl)
  else (pos1, b)

/-! ## Claim C9 -/

/-- C9: for every OPEN sniped position with positive entry price,
`checkAndClosePositions` closes it exactly when
`(current − entry)/entry ≥ profit_target`, setting
`realized_pnl = (size/entry) × current − size` and crediting it to the
daily ledger; below the target the position stays OPEN with only its
current price refreshed. -/
theorem snipe_closes_at_profit_target (pos : SnipedPosition) (price : ℚ)
    (b : BudgetTracking) (hopen : pos.status = "OPEN")
    (hentry : 0 < pos.entry_price) :
    (pos.profit_target ≤ (price - pos.entry_price) / pos.entry_price →
      (checkPositionStep pos price b).1.status = "CLOSED" ∧
      (checkPositionStep pos price b).1.realized_pnl =
        some (pos.size / pos.entry_price * price - pos.size) ∧
      (checkPositionStep pos price b).2.profit_loss =
        b.profit_loss + (pos.size / pos.entry_price * price - pos.size)) ∧
    ((price - pos.entry_price) / pos.entry_price < pos.profit_target →
      (checkPositionStep pos price b).1.status = "OPEN" ∧
      (checkPositionStep pos price b).1.current_price = price ∧
      (checkPositionStep pos price b).1.realized_pnl = pos.realized_pnl ∧
      (checkPositionStep pos price b).2 = b) := by
  constructor
  · intro hhit
    unfold checkPositionStep
    rw [if_pos hhit]
    exact ⟨rfl, rfl, by simp [queriesUpdateBudget]⟩
  · intro hmiss
    unfold checkPositionStep
    rw [if_neg (not_le.2 hmiss)]
    exact ⟨hopen, rfl, rfl, rfl⟩

/-- C9 (witness for `snipe_closes_at_profit_target`): the spec's scenario —
entry 0.40, target 0.05, current 0.42, size 10:
`(0.42−0.40)/0.40 = 0.05 ≥ 0.05`, so the position closes with
`realized_pnl = (10/0.40) × 0.42 − 10 = 0.5`. -/
theorem snipe_closes_at_profit_target_witness :
    (checkPositionStep ⟨1, "c", "t", "Yes", mkRat 2 5, mkRat 2 5, 10,
        mkRat 5 100, "OPEN", true, none⟩ (mkRat 42 100) ⟨0, 0, 0⟩).1.status
      = "CLOSED" ∧
    (checkPositionStep ⟨1, "c", "t", "Yes", mkRat 2 5, mkRat 2 5, 10,
        mkRat 5 100, "OPEN", true, none⟩ (mkRat 42 100) ⟨0, 0, 0⟩).1.realized_pnl
      = some (10 / mkRat 2 5 * mkRat 42 100 - 10) := by
  have h := (snipe_closes_at_profit_target
    ⟨1, "c", "t", "Yes", mkRat 2 5, mkRat 2 5, 10, mkRat 5 100, "OPEN", true, none⟩
    (mkRat 42 100) ⟨0, 0, 0⟩ rfl (by decide!)).1 (by decide!)
  exact ⟨h.1, h.2.1⟩

/-! ## Resolution scheduler (SpreadService.startResolver / scheduleNextCheck /
runCheckAndReschedule / stopResolver, part_006 lines 545–656) -/

/-- An open spread trade as seen by the scheduler. -/
structure OpenTrade where
  id : ℕ
  end_date : Option ℤ
  deriving DecidableEq, Repr

/-- A trade counted by the scheduler as needing an immediate check:
no `end_date`, or `end_date ≤ now`. -/
def pastDueOrDateless (now : ℤ) (t : OpenTrade) : Bool :=
  match t.end_date with
  | none => true
  | some e => e ≤ now

/-- What one scheduling step decides to do. `stopResolver` clears the timer
and resets `isResolverRunning`; `checkNow` runs `runCheckAndReschedule`
immediately; `sleepFor d` is `setTimeout(runCheckAndReschedule, d)`;
`idle` schedules nothing (unreachable when the open set is nonempty). -/
inductive ResolverAction where
  | stopResolver : ResolverAction
  | checkNow : ResolverAction
  | sleepFor (delayMs : ℤ) : ResolverAction
  | idle : ResolverAction
  deriving DecidableEq, Repr

/-- The loop body computing `earliestEndMs`: ignore dateless and past-due
trades, keep the smallest future end date seen so far. -/
def efeStep (now : ℤ) (acc : Option ℤ) (t : OpenTrade) : Option ℤ :=
  match t.end_date with
  | none => acc
  | some e =>
    if e ≤ now then acc
    else
      match acc with
      | none => some e
      | some m => if e < m then some e else some m

/-- `earliestEndMs` after the whole loop of `scheduleNextCheck`. -/
def earliestFutureEnd (now : ℤ) (ts : List OpenTrade) : Option ℤ :=
  ts.foldl (efeStep now) none

/-- `SpreadService.scheduleNextCheck`: stop when no open trades remain;
check immediately when any trade is past due or dateless; otherwise sleep
until the earliest future end date plus a 60 s buffer (at least 10 s). -/
def scheduleNextCheck (now : ℤ) (openTrades : List OpenTrade) : ResolverAction :=
  if openTrades.isEmpty then .stopResolver
  else if openTrades.any (pastDueOrDateless now) then .checkNow
  else
    match earliestFutureEnd now openTrades with
    | some e => .sleepFor (max (e - now + 60000) 10000)
    | none => .idle

/-- The rescheduling decision at the end of `runCheckAndReschedule`, taken
on the trades still open after the check: stop when none remain, retry in
5 minutes when past-due (or dateless) trades are still open, otherwise
reschedule against the new earliest future end date. -/
def afterCheck (now : ℤ) (remaining : List OpenTrade) : ResolverAction :=
  if remaining.isEmpty then .stopResolver
  else if remaining.any (pastDueOrDateless now) then .sleepFor (5 * 60000)
  else scheduleNextCheck now remaining

/-- The resolver's in-memory state: the `isResolverRunning` flag and the
pending scheduling decision (the timer handle). -/
structure ResolverState where
  isResolverRunning : Bool
  pending : Option ResolverAction
  deriving DecidableEq, Repr

/-- `SpreadService.startResolver`: a no-op when already running or when
there are no open trades; otherwise mark running and schedule. -/
def startResolver (st : ResolverState) (now : ℤ)
    (openTrades : List OpenTrade) : ResolverState :=
  if st.isResolverRunning then st
  else if openTrades.isEmpty then st
  else ⟨true, some (scheduleNextCheck now openTrades)⟩

lemma efe_go (now : ℤ) (ts : List OpenTrade)
    (h : ∀ t ∈ ts, ∃ e, t.end_date = some e ∧ now < e) (a : ℤ) (ha : now < a) :
    ∃ m, ts.foldl (efeStep now) (some a) = some m ∧ now < m ∧
      (m = a ∨ ∃ t ∈ ts, t.end_date = some m) ∧ m ≤ a ∧
      (∀ t ∈ ts, ∀ e, t.end_date = some e → m ≤ e) := by
  induction ts generalizing a with
  | nil => exact ⟨a, rfl, ha, Or.inl rfl, le_refl a, by simp⟩
  | cons t ts ih =>
    obtain ⟨e, he, hne⟩ := h t (List.mem_cons_self _ _)
    have hrest : ∀ t ∈ ts, ∃ e, t.end_date = some e ∧ now < e :=
      fun t' ht' => h t' (List.mem_cons_of_mem _ ht')
    by_cases hlt : e < a
    · have hstep : efeStep now (some a) t = some e := by
        simp [efeStep, he, not_le.2 hne, hlt]
      obtain ⟨m, hm, hnm, hmem, hme, hub⟩ := ih hrest e hne
      refine ⟨m, by rw [List.foldl_cons, hstep]; exact hm, hnm, ?_, ?_, ?_⟩
      · rcases hmem with rfl | ⟨t', ht', he'⟩
        · exact Or.inr ⟨t, List.mem_cons_self _ _, he⟩
        · exact Or.inr ⟨t', List.mem_cons_of_mem _ ht', he'⟩
      · exact le_trans hme (le_of_lt hlt)
      · intro t' ht' e' he'
        rcases List.mem_cons.1 ht' with rfl | ht''
        · rw [he] at he'
          injection he' with he'
          subst he'
          exact hme
        · exact hub t' ht'' e' he'
    · have hstep : efeStep now (some a) t = some a := by
        simp [efeStep, he, not_le.2 hne, hlt]
      obtain ⟨m, hm, hnm, hmem, hma, hub⟩ := ih hrest a ha
      refine ⟨m, by rw [List.foldl_cons, hstep]; exact hm, hnm, ?_, hma, ?_⟩
      · rcases hmem with rfl | ⟨t', ht', he'⟩
        · exact Or.inl rfl
        · exact Or.inr ⟨t', List.mem_cons_of_mem _ ht', he'⟩
      · intro t' ht' e' he'
        rcases List.mem_cons.1 ht' with rfl | ht''
        · rw [he] at he'
          injection he' with he'
          subst he'
          exact le_trans hma (not_lt.1 hlt)
        · exact hub t' ht'' e' he'

lemma earliestFutureEnd_spec (now : ℤ) (ts : List OpenTrade) (hne : ts ≠ [])
    (h : ∀ t ∈ ts, ∃ e, t.end_date = some e ∧ now < e) :
    ∃ m, earliestFutureEnd now ts = some m ∧ now < m ∧
      (∃ t ∈ ts, t.end_date = some m) ∧
      (∀ t ∈ ts, ∀ e, t.end_date = some e → m ≤ e) := by
  cases ts with
  | nil => exact absurd rfl hne
  | cons t ts =>
    obtain ⟨e, he, hnow⟩ := h t (List.mem_cons_self _ _)
    have hstep : efeStep now none t = some e := by
      simp [efeStep, he, not_le.2 hnow]
    obtain ⟨m, hm, hnm, hmem, hme, hub⟩ :=
      efe_go now ts (fun t' ht' => h t' (List.mem_cons_of_mem _ ht')) e hnow
    refine ⟨m, ?_, hnm, ?_, ?_⟩
    · rw [earliestFutureEnd, List.foldl_cons, hstep]
      exact hm
    · rcases hmem with rfl | ⟨t', ht', he'⟩
      · exact ⟨t, List.mem_cons_self _ _, he⟩
      · exact ⟨t', List.mem_cons_of_mem _ ht', he'⟩
    · intro t' ht' e' he'
      rcases List.mem_cons.1 ht' with rfl | ht''
      · rw [he] at he'
        injection he' with he'
        subst he'
        exact hme
      · exact hub t' ht'' e' he'

lemma any_pastDue_false (now : ℤ) (ts : List OpenTrade)
    (h : ∀ t ∈ ts, ∃ e, t.end_date = some e ∧ now < e) :
    ts.any (pastDueOrDateless now) = false := by
  rw [List.any_eq_false]
  intro t ht
  obtain ⟨e, he, hnow⟩ := h t ht
  simp [pastDueOrDateless, he, not_le.2 hnow]

/-! ## Claim C4 -/

/-- C4: at every scheduling step over the OPEN spread trades, the resolver
(1) is a no-op when started while already running; (2) checks immediately
when some open trade is past its end date or has none; (3) otherwise sleeps
until the earliest future end date plus the fixed 60 s buffer;
(4) after a check in which past-due (or dateless) trades remain open it
retries at the fixed 5-minute interval; and (5) it stops itself once no
OPEN trades remain (both when scheduling and after a check). -/
theorem resolver_scheduler_behaviour :
    (∀ (st : ResolverState) (now : ℤ) (ts : List OpenTrade),
      st.isResolverRunning = true → startResolver st now ts = st) ∧
    (∀ (now : ℤ) (ts : List OpenTrade), ts ≠ [] →
      ts.any (pastDueOrDateless now) = true →
      scheduleNextCheck now ts = .checkNow) ∧
    (∀ (now : ℤ) (ts : List OpenTrade), ts ≠ [] →
      (∀ t ∈ ts, ∃ e, t.end_date = some e ∧ now < e) →
      ∃ m, earliestFutureEnd now ts = some m ∧
        (∃ t ∈ ts, t.end_date = some m) ∧
        (∀ t ∈ ts, ∀ e, t.end_date = some e → m ≤ e) ∧
        scheduleNextCheck now ts = .sleepFor (m - now + 60000)) ∧
    (∀ (now : ℤ) (rem : List OpenTrade), rem ≠ [] →
      rem.any (pastDueOrDateless now) = true →
      afterCheck now rem = .sleepFor (5 * 60000)) ∧
    (∀ now : ℤ, scheduleNextCheck now [] = .stopResolver ∧
      afterCheck now [] = .stopResolver) := by
  refine ⟨?_, ?_, ?_, ?_, ?_⟩
  · intro st now ts hrun
    unfold startResolver
    rw [if_pos hrun]
  · intro now ts hne hany
    cases ts with
    | nil => exact absurd rfl hne
    | cons t l =>
      unfold scheduleNextCheck
      rw [if_neg (by simp), if_pos hany]
  · intro now ts hne hfut
    obtain ⟨m, hm, hnow, hmem, hub⟩ := earliestFutureEnd_spec now ts hne hfut
    refine ⟨m, hm, hmem, hub, ?_⟩
    cases ts with
    | nil => exact absurd rfl hne
    | cons t l =>
      unfold scheduleNextCheck
      rw [if_neg (by simp),
        if_neg (by rw [any_pastDue_false now (t :: l) hfut]; simp), hm]
      dsimp only
      rw [max_eq_left (by linarith : (10000 : ℤ) ≤ m - now + 60000)]
  · intro now rem hne hany
    cases rem with
    | nil => exact absurd rfl hne
    | cons t l =>
      unfold afterCheck
      rw [if_neg (by simp), if_pos hany]
  · intro now
    exact ⟨rfl, rfl⟩

/-- C4 (witness for `resolver_scheduler_behaviour`): concrete instances of
each scheduling behaviour. -/
theorem resolver_scheduler_behaviour_witness :
    startResolver ⟨true, none⟩ 0 [] = ⟨true, none⟩ ∧
    scheduleNextCheck 0 [⟨1, none⟩] = .checkNow ∧
    scheduleNextCheck 0 [⟨1, some 100⟩, ⟨2, some 50⟩] =
      .sleepFor (50 - 0 + 60000) ∧
    afterCheck 0 [⟨1, some (-5)⟩] = .sleepFor (5 * 60000) ∧
    scheduleNextCheck 0 ([] : List OpenTrade) = .stopResolver ∧
    afterCheck 0 ([] : List OpenTrade) = .stopResolver := by
  have hfut : ∀ t ∈ ([⟨1, some 100⟩, ⟨2, some 50⟩] : List OpenTrade),
      ∃ e, t.end_date = some e ∧ (0 : ℤ) < e := by
    intro t ht
    rcases List.mem_cons.1 ht with rfl | ht2
    · exact ⟨100, rfl, by decide⟩
    · rcases List.mem_cons.1 ht2 with rfl | ht3
      · exact ⟨50, rfl, by decide⟩
      · exact absurd ht3 (List.not_mem_nil t)
  obtain ⟨m, hm, -, -, hact⟩ := resolver_scheduler_behaviour.2.2.1 0
    [⟨1, some 100⟩, ⟨2, some 50⟩] (by decide) hfut
  have hm50 : m = 50 := by
    have hev : earliestFutureEnd 0 [⟨1, some 100⟩, ⟨2, some 50⟩] = some 50 := by
      decide
    rw [hev] at hm
    injection hm with hm
    exact hm.symm
  subst hm50
  exact ⟨resolver_scheduler_behaviour.1 _ _ _ rfl,
    resolver_scheduler_behaviour.2.1 0 _ (by decide) (by decide),
    hact,
    resolver_scheduler_behaviour.2.2.2.1 0 _ (by decide) (by decide),
    (resolver_scheduler_behaviour.2.2.2.2 0).1,
    (resolver_scheduler_behaviour.2.2.2.2 0).2⟩

/-! ## Advisory response parsers
(ClaudeService.parseAnalysisResponse / LocalLLMService.parseAnalysisResponse)

Responses are JS strings, embedded as `List Char`. `JSON.parse` together
with the dynamic field access of the result is abstracted as a function
`jsonParse : List Char → Option ParsedJson` (`none` = the parse threw);
everything around it is translated from the source. -/

/-- JS whitespace for `String.prototype.trim` (the cases arising here). -/
def isJsSpace (ch : Char) : Bool :=
  ch == ' ' || ch == '\n' || ch == '\t' || ch == '\r'

/-- `text.trim()`. -/
def jsTrim (l : List Char) : List Char :=
  ((l.dropWhile isJsSpace).reverse.dropWhile isJsSpace).reverse

/-- Scan for the first occurrence of `"</think>"` and return everything
after it (`none` when there is no closing tag). -/
def splitAfterClose : List Char → Option (List Char)
  | [] => none
  | c :: cs =>
    if isPr : ("</think>".toList).isPrefixOf (c :: cs) then some ((c :: cs).drop 8)
    else splitAfterClose cs

/-- `cleanText.replace(/<think>[\s\S]*?<\/think>/g, '')`: drop each
non-greedy `<think>…</think>` segment, left to right; a `<think>` with no
later close matches nothing and is kept. The fuel argument (initially the
text length, which bounds the number of steps) only forces termination. -/
def removeThinkAux : ℕ → List Char → List Char
  | 0, cs => cs
  | _ + 1, [] => []
  | fuel + 1, c :: cs =>
    if ("<think>".toList).isPrefixOf (c :: cs) then
      match splitAfterClose ((c :: cs).drop 7) with
      | some suffix => removeThinkAux fuel suffix
      | none => c :: cs
    else c :: removeThinkAux fuel cs

def removeThink (cs : List Char) : List Char := removeThinkAux cs.length cs

/-- `text.replace(new RegExp(pat + "\n?", "g"), '')` for a literal `pat`:
drop every occurrence of `pat`, each together with one directly following
newline. Fuel as in `removeThinkAux`. -/
def removeFencesAux (pat : List Char) : ℕ → List Char → List Char
  | 0, cs => cs
  | _ + 1, [] => []
  | fuel + 1, c :: cs =>
    if pat.isPrefixOf (c :: cs) then
      match (c :: cs).drop pat.length with
      | '\n' :: rest => removeFencesAux pat fuel rest
      | rest => removeFencesAux pat fuel rest
    else c :: removeFencesAux pat fuel cs

def removeJsonFences (cs : List Char) : List Char :=
  removeFencesAux ("```json".toList) cs.length cs

def removeTickFences (cs : List Char) : List Char :=
  removeFencesAux ("```".toList) cs.length cs

/-- The dynamic result of `JSON.parse` restricted to the fields both
parsers read; `none` = field missing (or of the wrong primitive type). -/
structure ParsedJson where
  decision : Option String
  confidence : Option ℚ
  reasoning : Option String
  suggested_size : Option ℚ
  key_factors : Option (List String)
  risks : Option (List String)
  deriving DecidableEq, Repr

/-- The `ClaudeAnalysis` record as the services return it. -/
structure LLMAnalysis where
  decision : String
  confidence : ℚ
  reasoning : String
  suggested_size : Option ℚ
  key_factors : List String
  risks : List String
  deriving DecidableEq, Repr

/-- JS falsiness of an optional string (`undefined`, `""`). -/
def jsFalsyStr : Option String → Bool
  | none => true
  | some s => s == ""

/-- JS falsiness of an optional number (`undefined`, `0`). -/
def jsFalsyNum : Option ℚ → Bool
  | none => true
  | some q => q == 0

/-- The safe HOLD fallback of `LocalLLMService.parseAnalysisResponse`. -/
def safeHoldLocal : LLMAnalysis :=
  { decision := "HOLD"
    confidence := 0
    reasoning := "Failed to parse Local LLM response"
    suggested_size := some 0
    key_factors := []
    risks := ["Parse error"] }

/-- The text-cleaning pipeline of `LocalLLMService.parseAnalysisResponse`
(localllm.service.ts lines 119–133): trim, drop `<think>` segments, then
(only when the result still starts with a fence) drop all fence markers,
and trim again. -/
def cleanLocalText (text : List Char) : List Char :=
  let c0 := jsTrim text
  let c1 := removeThink c0
  let c2 :=
    if ("```json".toList).isPrefixOf c1 then removeTickFences (removeJsonFences c1)
    else if ("```".toList).isPrefixOf c1 then removeTickFences c1
    else c1
  jsTrim c2

/-- `LocalLLMService.parseAnalysisResponse` (lines 117–164): any parse or
required-field failure is caught and converted to the safe HOLD; otherwise
confidence is clamped into [0,1] and missing arrays default to empty.
(Note `!parsed.confidence` also treats confidence 0 as missing.) -/
def localLLMParseAnalysisResponse (jsonParse : List Char → Option ParsedJson)
    (text : List Char) : LLMAnalysis :=
  let cleanText := cleanLocalText text
  match jsonParse cleanText with
  | none => safeHoldLocal
  | some parsed =>
    if jsFalsyStr parsed.decision || jsFalsyNum parsed.confidence ||
        jsFalsyStr parsed.reasoning then
      safeHoldLocal
    else
      { decision := parsed.decision.getD ""
        confidence := max 0 (min 1 (parsed.confidence.getD 0))
        reasoning := parsed.reasoning.getD ""
        suggested_size := parsed.suggested_size
        key_factors := parsed.key_factors.getD []
        risks := parsed.risks.getD [] }

/-- The text-cleaning pipeline of `ClaudeService.parseAnalysisResponse`
(claude.service.ts lines 154–164): trim, slice one leading ```json, one
leading ```, one trailing ```, trim. No `<think>` handling. -/
def cleanClaudeText (response : List Char) : List Char :=
  let j0 := jsTrim response
  let j1 := if ("```json".toList).isPrefixOf j0 then j0.drop 7 else j0
  let j2 := if ("```".toList).isPrefixOf j1 then j1.drop 3 else j1
  let j3 := if ("```".toList).isSuffixOf j2 then j2.take (j2.length - 3) else j2
  jsTrim j3

/-- The decision vocabulary accepted by the Claude parser. -/
def claudeDecisions : List String :=
  ["BUY_YES", "BUY_NO", "SELL_YES", "SELL_NO", "SELL", "HOLD"]

/-- `ClaudeService.parseAnalysisResponse` (lines 150–199): validates and
throws — the outer catch rethrows `Failed to parse Claude analysis: …` —
rather than falling back to HOLD; out-of-range confidence is rejected, not
clamped; only missing arrays are defaulted. -/
def claudeParseAnalysisResponse (jsonParse : List Char → Option ParsedJson)
    (response : List Char) : Except String LLMAnalysis :=
  let jsonStr := cleanClaudeText response
  match jsonParse jsonStr with
  | none => .error "Failed to parse Claude analysis: JSON.parse error"
  | some analysis =>
    if jsFalsyStr analysis.decision ||
        !(claudeDecisions.contains (analysis.decision.getD "")) then
      .error "Failed to parse Claude analysis: Invalid decision in Claude response"
    else
      match analysis.confidence with
      | none =>
        .error "Failed to parse Claude analysis: Invalid confidence in Claude response"
      | some conf =>
        if conf < 0 ∨ 1 < conf then
          .error "Failed to parse Claude analysis: Invalid confidence in Claude response"
        else if jsFalsyStr analysis.reasoning then
          .error "Failed to parse Claude analysis: Invalid reasoning in Claude response"
        else
          match analysis.suggested_size with
          | none =>
            .error "Failed to parse Claude analysis: Invalid suggested_size in Claude response"
          | some ssize =>
            if ssize < 0 then
              .error "Failed to parse Claude analysis: Invalid suggested_size in Claude response"
            else
              .ok { decision := analysis.decision.getD ""
                    confidence := conf
                    reasoning := analysis.reasoning.getD ""
                    suggested_size := some ssize
                    key_factors := analysis.key_factors.getD []
                    risks := analysis.risks.getD [] }

/-! ## Claim C5 -/

/-- C5 (counterexample): the claim that every advisory provider's parser
converts malformed input to a safe HOLD rather than raising is false for
the Claude parser: on unparsable input it throws
(`Failed to parse Claude analysis: …`), which propagates out of
`claudeService.analyzeMarket` to the caller. -/
theorem claude_parser_raises_on_malformed :
    claudeParseAnalysisResponse (fun _ => none) ("not json".toList)
      = Except.error "Failed to parse Claude analysis: JSON.parse error" ∧
    claudeParseAnalysisResponse (fun _ => none) ("not json".toList)
      ≠ Except.ok safeHoldLocal :=
  ⟨rfl, fun h => Except.noConfusion
    (show Except.error "Failed to parse Claude analysis: JSON.parse error" =
      Except.ok safeHoldLocal from h)⟩

/-- C5 (amended): the Local-LLM parser behaves as claimed — it strips
code-fence markers and hidden `<think>` segments, clamps confidence into
[0,1], defaults missing `key_factors`/`risks` arrays to empty, and turns
malformed or unparsable input into a safe HOLD with confidence 0. The
Claude parser instead strips code fences only and throws on malformed
input — and likewise rejects (rather than clamps) out-of-range
confidence; its exception is handled by the trading loop's
provider-fallback chain, not converted to HOLD inside the parser. -/
theorem advisory_parser_behaviour :
    (∀ (f : List Char → Option ParsedJson) (t : List Char),
      f (cleanLocalText t) = none →
      localLLMParseAnalysisResponse f t = safeHoldLocal) ∧
    safeHoldLocal.decision = "HOLD" ∧ safeHoldLocal.confidence = 0 ∧
    (∀ (f : List Char → Option ParsedJson) (t : List Char),
      0 ≤ (localLLMParseAnalysisResponse f t).confidence ∧
      (localLLMParseAnalysisResponse f t).confidence ≤ 1) ∧
    (∀ (f : List Char → Option ParsedJson) (t : List Char) (p : ParsedJson),
      f (cleanLocalText t) = some p →
      jsFalsyStr p.decision = false → jsFalsyNum p.confidence = false →
      jsFalsyStr p.reasoning = false →
      (localLLMParseAnalysisResponse f t).key_factors = p.key_factors.getD [] ∧
      (localLLMParseAnalysisResponse f t).risks = p.risks.getD []) ∧
    (cleanLocalText
        ("<think>let me reason</think>```json\n\x7b\"decision\":\"HOLD\"\x7d\n```".toList)
      = "\x7b\"decision\":\"HOLD\"\x7d".toList) ∧
    (∀ (f : List Char → Option ParsedJson) (t : List Char),
      f (cleanClaudeText t) = none →
      claudeParseAnalysisResponse f t =
        Except.error "Failed to parse Claude analysis: JSON.parse error") ∧
    (∀ (f : List Char → Option ParsedJson) (t : List Char) (p : ParsedJson)
        (c : ℚ),
      f (cleanClaudeText t) = some p →
      jsFalsyStr p.decision = false →
      claudeDecisions.contains (p.decision.getD "") = true →
      p.confidence = some c → 1 < c →
      claudeParseAnalysisResponse f t =
        Except.error
          "Failed to parse Claude analysis: Invalid confidence in Claude response") := by
  refine ⟨?_, rfl, rfl, ?_, ?_, by decide, ?_, ?_⟩
  · intro f t h
    unfold localLLMParseAnalysisResponse
    dsimp only
    rw [h]
  · intro f t
    unfold localLLMParseAnalysisResponse
    dsimp only
    cases hf : f (cleanLocalText t) with
    | none => exact ⟨le_refl 0, by norm_num [safeHoldLocal]⟩
    | some p =>
      dsimp only
      split_ifs with hcond
      · exact ⟨le_refl 0, by norm_num [safeHoldLocal]⟩
      · exact ⟨le_max_left 0 _, max_le zero_le_one (min_le_left 1 _)⟩
  · intro f t p hf h1 h2 h3
    unfold localLLMParseAnalysisResponse
    dsimp only
    rw [hf]
    dsimp only
    rw [if_neg (by simp [h1, h2, h3])]
    exact ⟨rfl, rfl⟩
  · intro f t h
    unfold claudeParseAnalysisResponse
    dsimp only
    rw [h]
  · intro f t p c hf h1 h2 hc hgt
    unfold claudeParseAnalysisResponse
    dsimp only
    rw [hf]
    dsimp only
    rw [if_neg (by rw [h1, h2]; decide), hc]
    dsimp only
    rw [if_pos (Or.inr hgt)]

/-- C5 (witness for `advisory_parser_behaviour`): concrete instances —
safe HOLD on unparsable local input, clamping of confidence 1.5, empty
defaults for missing arrays, and the Claude parser's errors on unparsable
input and on confidence 2. -/
theorem advisory_parser_behaviour_witness :
    localLLMParseAnalysisResponse (fun _ => none) ("garbage".toList)
      = safeHoldLocal ∧
    (0 ≤ (localLLMParseAnalysisResponse
        (fun _ => some ⟨some "HOLD", some (mkRat 3 2), some "ok", none, none, none⟩)
        ("x".toList)).confidence ∧
      (localLLMParseAnalysisResponse
        (fun _ => some ⟨some "HOLD", some (mkRat 3 2), some "ok", none, none, none⟩)
        ("x".toList)).confidence ≤ 1) ∧
    (localLLMParseAnalysisResponse
        (fun _ => some ⟨some "HOLD", some (mkRat 3 4), some "ok", none, none, none⟩)
        ("x".toList)).key_factors = [] ∧
    claudeParseAnalysisResponse (fun _ => none) ("x".toList)
      = Except.error "Failed to parse Claude analysis: JSON.parse error" ∧
    claudeParseAnalysisResponse
        (fun _ => some ⟨some "HOLD", some 2, some "ok", some 1, none, none⟩)
        ("x".toList)
      = Except.error
          "Failed to parse Claude analysis: Invalid confidence in Claude response" := by
  refine ⟨advisory_parser_behaviour.1 _ _ rfl,
    advisory_parser_behaviour.2.2.2.1 _ _,
    (advisory_parser_behaviour.2.2.2.2.1 _ _
      ⟨some "HOLD", some (mkRat 3 4), some "ok", none, none, none⟩
      rfl (by decide) (by decide!) (by decide)).1,
    advisory_parser_behaviour.2.2.2.2.2.2.1 _ _ rfl,
    advisory_parser_behaviour.2.2.2.2.2.2.2 _ _
      ⟨some "HOLD", some 2, some "ok", some 1, none, none⟩ 2
      rfl (by decide) (by decide) rfl (by decide)⟩

end PolyTrader
